import Mathlib

/-!
Verification of the Jetson Ollama control panel (React frontend `App.js` and
the Flask stats helper) against its natural-language specification.

The streaming chat/pull handlers, the pull-progress and chat aggregation
logic, the `tegrastats` telemetry parser, the `/api/system-stats` endpoint
classification and the memory admission guard are shallowly embedded below.
Byte buffers are modelled as `List Char` chunks (the handlers run them
through `TextDecoder` before any processing), JavaScript/Python numbers as
`ℚ`, and fallible operations as `Option`/`Except`.
-/

/-- Whitespace recognised by `String.prototype.trim` / Python `str.strip`
(restricted to the ASCII whitespace that can occur in the streams at hand). -/
def wsChar (c : Char) : Bool :=
  c = ' ' || c = '\t' || c = '\n' || c = '\r'

/-- Model of JavaScript `string.trim()` (and Python `str.strip()`) on a
character list: drop whitespace from both ends. -/
def jsTrim (l : List Char) : List Char :=
  ((l.dropWhile wsChar).reverse.dropWhile wsChar).reverse

/-- Model of JavaScript `chunk.split('\n')`: split on every newline, keeping
empty pieces (so a trailing newline yields a trailing empty piece). -/
def splitNl : List Char → List (List Char)
  | [] => [[]]
  | c :: cs =>
    let r := splitNl cs
    if c = '\n' then [] :: r
    else
      match r with
      | [] => [[c]]
      | h :: t => (c :: h) :: t

/-- Maximal leading run of decimal digits, returned with the remainder. -/
def takeDigits : List Char → List Char × List Char
  | [] => ([], [])
  | c :: cs =>
    if c.isDigit then
      let p := takeDigits cs
      (c :: p.1, p.2)
    else ([], c :: cs)

/-- Decimal value of a digit string (the `int(...)` conversion applied to a
regex capture group). -/
def digitsToNat (l : List Char) : ℕ :=
  l.foldl (fun n c => 10 * n + (c.toNat - 48)) 0

/-- JSON values as produced by `JSON.parse`. -/
inductive Json where
  | null : Json
  | bool (b : Bool) : Json
  | num (q : ℚ) : Json
  | str (s : String) : Json
  | arr (elems : List Json) : Json
  | obj (fields : List (String × Json)) : Json

/-- Leading JSON whitespace (exactly the four characters of the JSON grammar). -/
def skipWs (l : List Char) : List Char :=
  l.dropWhile wsChar

/-- Numeric value of a hexadecimal digit. -/
def hexVal (c : Char) : Option ℕ :=
  if '0' ≤ c ∧ c ≤ '9' then some (c.toNat - 48)
  else if 'a' ≤ c ∧ c ≤ 'f' then some (c.toNat - 87)
  else if 'A' ≤ c ∧ c ≤ 'F' then some (c.toNat - 55)
  else none

/-- Body of a JSON string literal after the opening quote: standard escapes,
raw control characters rejected, result paired with the remainder after the
closing quote. -/
def parseStrAux (acc : List Char) : List Char → Option (String × List Char)
  | [] => none
  | '"' :: r => some (String.mk acc.reverse, r)
  | '\\' :: e :: r =>
    match e with
    | '"' => parseStrAux ('"' :: acc) r
    | '\\' => parseStrAux ('\\' :: acc) r
    | '/' => parseStrAux ('/' :: acc) r
    | 'b' => parseStrAux ('\x08' :: acc) r
    | 'f' => parseStrAux ('\x0c' :: acc) r
    | 'n' => parseStrAux ('\n' :: acc) r
    | 'r' => parseStrAux ('\r' :: acc) r
    | 't' => parseStrAux ('\t' :: acc) r
    | 'u' =>
      match r with
      | a :: b :: c :: d :: r2 =>
        match hexVal a, hexVal b, hexVal c, hexVal d with
        | some x, some y, some z, some w =>
          parseStrAux (Char.ofNat (((x * 16 + y) * 16 + z) * 16 + w) :: acc) r2
        | _, _, _, _ => none
      | _ => none
    | _ => none
  | '\\' :: [] => none
  | c :: r => if c.toNat < 32 then none else parseStrAux (c :: acc) r

/-- JSON number: optional minus, integer part without leading zeros, optional
fraction, optional exponent; value as an exact rational. -/
def parseNum (l : List Char) : Option (Json × List Char) :=
  let p := match l with
    | '-' :: r => ((-1 : ℚ), r)
    | r => ((1 : ℚ), r)
  let d := takeDigits p.2
  if d.1 = [] then none
  else if d.1.length > 1 ∧ d.1.headI = '0' then none
  else
    let intPart : ℚ := (digitsToNat d.1 : ℚ)
    let f := match d.2 with
      | '.' :: r2 =>
        let fd := takeDigits r2
        if fd.1 = [] then none
        else some ((digitsToNat fd.1 : ℚ) / (10 : ℚ) ^ fd.1.length, fd.2)
      | r2 => some ((0 : ℚ), r2)
    match f with
    | none => none
    | some (fracPart, r3) =>
      match r3 with
      | 'e' :: r4 | 'E' :: r4 =>
        let q := match r4 with
          | '+' :: r5 => ((1 : ℤ), r5)
          | '-' :: r5 => ((-1 : ℤ), r5)
          | r5 => ((1 : ℤ), r5)
        let ed := takeDigits q.2
        if ed.1 = [] then none
        else
          some (Json.num (p.1 * (intPart + fracPart) *
            (10 : ℚ) ^ (q.1 * (digitsToNat ed.1 : ℤ))), ed.2)
      | _ => some (Json.num (p.1 * (intPart + fracPart)), r3)

mutual

/-- Recursive-descent JSON value parser; the fuel only bounds recursion depth
and is instantiated generously by `jsonParse`. -/
def parseVal : ℕ → List Char → Option (Json × List Char)
  | 0, _ => none
  | f + 1, l =>
    match skipWs l with
    | 'n' :: 'u' :: 'l' :: 'l' :: r => some (Json.null, r)
    | 't' :: 'r' :: 'u' :: 'e' :: r => some (Json.bool true, r)
    | 'f' :: 'a' :: 'l' :: 's' :: 'e' :: r => some (Json.bool false, r)
    | '"' :: r =>
      match parseStrAux [] r with
      | some (s, r2) => some (Json.str s, r2)
      | none => none
    | '[' :: r =>
      (match skipWs r with
       | ']' :: r2 => some (Json.arr [], r2)
       | r2 =>
         match parseElems f r2 with
         | some (xs, r3) => some (Json.arr xs, r3)
         | none => none)
    | '\x7b' :: r =>
      (match skipWs r with
       | '\x7d' :: r2 => some (Json.obj [], r2)
       | r2 =>
         match parseMembers f r2 with
         | some (ms, r3) => some (Json.obj ms, r3)
         | none => none)
    | r => parseNum r

/-- Comma-separated JSON array elements up to the closing bracket. -/
def parseElems : ℕ → List Char → Option (List Json × List Char)
  | 0, _ => none
  | f + 1, l =>
    match parseVal f l with
    | none => none
    | some (j, r) =>
      match skipWs r with
      | ',' :: r2 =>
        (match parseElems f r2 with
         | some (xs, r3) => some (j :: xs, r3)
         | none => none)
      | ']' :: r2 => some ([j], r2)
      | _ => none

/-- Comma-separated JSON object members up to the closing brace. -/
def parseMembers : ℕ → List Char → Option (List (String × Json) × List Char)
  | 0, _ => none
  | f + 1, l =>
    match skipWs l with
    | '"' :: r =>
      (match parseStrAux [] r with
       | none => none
       | some (k, r2) =>
         match skipWs r2 with
         | ':' :: r3 =>
           (match parseVal f r3 with
            | none => none
            | some (v, r4) =>
              match skipWs r4 with
              | ',' :: r5 =>
                (match parseMembers f r5 with
                 | some (ms, r6) => some ((k, v) :: ms, r6)
                 | none => none)
              | '\x7d' :: r5 => some ([(k, v)], r5)
              | _ => none)
         | _ => none)
    | _ => none

end

/-- Model of `JSON.parse`: a single JSON value with surrounding whitespace,
`none` on any syntax error (where the JavaScript builtin throws). -/
def jsonParse (l : List Char) : Option Json :=
  match parseVal (l.length + 1) l with
  | some (j, r) => if skipWs r = [] then some j else none
  | none => none

/-- Property access `obj.key` on a parsed JSON value: `none` for a non-object
or a missing key; with duplicate keys the last binding wins, as in
JavaScript. -/
def jfield : Json → String → Option Json
  | Json.obj fs, k => fs.foldl (fun acc p => if p.1 = k then some p.2 else acc) none
  | _, _ => none

/-- Two-level property access `obj.k1.k2` guarded the way optional member
access behaves after a truthiness check. -/
def jfield2 (j : Json) (k1 k2 : String) : Option Json :=
  match jfield j k1 with
  | some v => jfield v k2
  | none => none

/-- JavaScript truthiness of a JSON value: `null`, `false`, `0` and the empty
string are falsy; arrays and objects are truthy. -/
def jtruthy : Json → Bool
  | Json.null => false
  | Json.bool b => b
  | Json.num q => decide (q ≠ 0)
  | Json.str s => decide (s ≠ "")
  | Json.arr _ => true
  | Json.obj _ => true

/-- Truthiness of a possibly-absent property (`undefined` is falsy). -/
def jtruthyO : Option Json → Bool
  | some v => jtruthy v
  | none => false

/-- Numeric value of a property, as used once a truthiness check has passed;
non-numeric values do not occur on the verified paths. -/
def jnumD : Option Json → ℚ
  | some (Json.num q) => q
  | _ => 0

/-- String value of a property, as used once a truthiness check has passed;
non-string values do not occur on the verified paths. -/
def jstrD : Option Json → String
  | some (Json.str s) => s
  | _ => ""

example : jsonParse (("\x7b\"status\":\"ok\"\x7d").toList)
    = some (Json.obj [(("status"), Json.str ("ok"))]) := rfl

example : jsonParse (("not json").toList) = none := rfl

/-- JavaScript `Math.round`: round half toward positive infinity. -/
def jsRound (q : ℚ) : ℤ :=
  ⌊q + 1 / 2⌋

/-- One chat message of the `chatHistory` state. -/
structure ChatMessage where
  role : String
  content : String
deriving DecidableEq

/-- Pull-operation state: `status` is the `pullStatus` React state; `percent`
records the percentage embedded in the most recent `Downloading... N%`
status, mirroring the spec's `PullProgress` view of the same state. -/
structure PullState where
  status : String
  percent : Option ℤ
deriving DecidableEq

/-- Per-record body of the pull loop's `lines.forEach`: records with truthy
`total` and `completed` set a rounded percentage status, records with a
truthy `status` set it verbatim, all others leave the state alone. -/
def pullStep (st : PullState) (j : Json) : PullState :=
  if jtruthyO (jfield j ("total")) && jtruthyO (jfield j ("completed")) then
    let percent := jsRound (jnumD (jfield j ("completed")) / jnumD (jfield j ("total")) * 100)
    { status := ("Downloading... ") ++ toString percent ++ ("%"), percent := some percent }
  else if jtruthyO (jfield j ("status")) then
    { st with status := jstrD (jfield j ("status")) }
  else st

/-- Non-blank lines of one pull chunk:
`chunk.split('\n').filter(line => line.trim() !== '')`. -/
def pullChunkLines (chunk : List Char) : List (List Char) :=
  (splitNl chunk).filter (fun l => !(jsTrim l).isEmpty)

/-- Sequential `JSON.parse` of the pull loop's lines: the decoded records in
order, paired with whether a malformed line threw (aborting the rest). -/
def pullDecode : List (List Char) → List Json × Bool
  | [] => ([], false)
  | l :: ls =>
    match jsonParse l with
    | none => ([], true)
    | some j =>
      let p := pullDecode ls
      (j :: p.1, p.2)

/-- Record sequence extracted by the pull handler from a chunked response
body, with the thrown-exception flag. -/
def pullRecords (chunks : List (List Char)) : List Json × Bool :=
  pullDecode (chunks.flatMap pullChunkLines)

/-- Pull loop over the decoded lines, threading `pullStatus`; an error carries
the state at the moment `JSON.parse` threw. -/
def pullRunLines (st : PullState) : List (List Char) → Except PullState PullState
  | [] => Except.ok st
  | l :: ls =>
    match jsonParse l with
    | none => Except.error st
    | some j => pullRunLines (pullStep st j) ls

/-- The `handlePullModel` handler: guard on an empty model name, initial
status, the streaming loop, then the terminal success status or — on a
thrown parse error or a transport failure — the terminal error status. -/
def handlePullModel (name : String) (st0 : PullState) (chunks : List (List Char))
    (transportFail : Bool) : PullState :=
  if name.isEmpty then st0
  else
    let st1 : PullState :=
      { st0 with status := ("Pulling model: ") ++ name ++ ("...") }
    match pullRunLines st1 (chunks.flatMap pullChunkLines) with
    | Except.error st2 => { st2 with status := ("Error pulling model.") }
    | Except.ok st2 =>
      if transportFail then { st2 with status := ("Error pulling model.") }
      else { st2 with status := ("Model pulled successfully!") }

/-- Per-line record extraction of the chat loop: skip lines whose trimmed
form is empty or does not start with an opening brace, then attempt
`JSON.parse` with malformed lines silently dropped. -/
def chatLineRecord (line : List Char) : Option Json :=
  match jsTrim line with
  | [] => none
  | c :: cs => if c = '\x7b' then jsonParse (c :: cs) else none

/-- Record sequence extracted by the chat handler from a chunked response
body: each chunk is split on newlines independently. -/
def chatRecords (chunks : List (List Char)) : List Json :=
  chunks.flatMap (fun chunk => (splitNl chunk).filterMap chatLineRecord)

/-- One chat chunk: fold the chunk's lines over the accumulated assistant
content, appending each record's truthy `message.content` and tracking the
per-chunk `hasDelta` flag. -/
def chatProcessChunk (content : String) (chunk : List Char) : String × Bool :=
  (splitNl chunk).foldl
    (fun (p : String × Bool) line =>
      match chatLineRecord line with
      | none => p
      | some j =>
        if jtruthyO (jfield j ("message")) && jtruthyO (jfield2 j ("message") ("content")) then
          (p.1 ++ jstrD (jfield2 j ("message") ("content")), true)
        else p)
    (content, false)

/-- In-place replacement of the trailing message's content
(`updated[updated.length - 1] = { ...last, content }`). -/
def updateLast (h : List ChatMessage) (c : String) : List ChatMessage :=
  match h.getLast? with
  | none => h
  | some m => h.dropLast ++ [{ role := m.role, content := c }]

/-- Chat-history evolution of `handleChatSubmit` past its guard: append the
user message and the empty assistant seed, stream the chunks committing one
update per chunk that produced a delta, and on transport failure append the
terminal error message. -/
def chatStreamHistory (history : List ChatMessage) (prompt : String)
    (chunks : List (List Char)) (transportFail : Bool) : List ChatMessage :=
  let h2 := (history ++ [{ role := ("user"), content := prompt }])
      ++ [{ role := ("assistant"), content := ("") }]
  let res := chunks.foldl
    (fun (p : List ChatMessage × String) chunk =>
      let q := chatProcessChunk p.2 chunk
      if q.2 then (updateLast p.1 q.1, q.1) else (p.1, q.1))
    (h2, "")
  if transportFail then
    res.1 ++ [{ role := ("assistant"), content := ("Sorry, I encountered an error.") }]
  else res.1

/-- Locally known model descriptor; `size` is optional to mirror the
`selectedModelInfo.size || 0` access. -/
structure ModelInfo where
  name : String
  size : Option ℚ
deriving DecidableEq

/-- Telemetry sample as served by `/api/system-stats`; every field is
independently optional, matching the keys the Python parser may insert. -/
structure Stats where
  ram_used_mb : Option ℕ := none
  ram_total_mb : Option ℕ := none
  ram_used_gb : Option ℚ := none
  ram_total_gb : Option ℚ := none
  cpu_usage_percent : Option ℚ := none
  gpu_usage_percent : Option ℕ := none
  soc_temp_c : Option ℚ := none
deriving DecidableEq

/-- Application state touched by the chat submission path. -/
structure AppState where
  chatHistory : List ChatMessage
  prompt : String
  isStreaming : Bool
  selectedModel : String
  selectedModelInfo : Option ModelInfo
deriving DecidableEq

/-- The `handleChatSubmit` handler: the boundary guard
`if (!prompt || isStreaming || !selectedModel || !selectedModelInfo) return`
followed by the streaming run; the boolean reports whether a request was
issued. -/
def handleChatSubmit (st : AppState) (chunks : List (List Char))
    (transportFail : Bool) : AppState × Bool :=
  if st.prompt.isEmpty || st.isStreaming || st.selectedModel.isEmpty
      || st.selectedModelInfo.isNone then (st, false)
  else
    ({ st with
        chatHistory := chatStreamHistory st.chatHistory st.prompt chunks transportFail,
        prompt := (""),
        isStreaming := false }, true)

/-- The `hasSufficientMemory` admission guard: admit with no telemetry sample
or no selected model, otherwise require free RAM above 1.5 times the model
size. -/
def hasSufficientMemory (systemStats : Option Stats)
    (selectedModelInfo : Option ModelInfo) : Bool :=
  match systemStats, selectedModelInfo with
  | none, _ => true
  | some _, none => true
  | some s, some m =>
    let freeGb := s.ram_total_gb.getD 0 - s.ram_used_gb.getD 0
    let modelGb := m.size.getD 0 / 1000000000
    decide (freeGb > modelGb * 1.5)

/-- Python `round` to an integer: round half to even on the exact value. -/
def rhe (y : ℚ) : ℤ :=
  let f := ⌊y⌋
  let r := y - f
  if r < 1 / 2 then f
  else if 1 / 2 < r then f + 1
  else if f % 2 = 0 then f else f + 1

/-- Python `round(x, 2)`: round half to even at two decimal places. -/
def pyRound2 (q : ℚ) : ℚ :=
  (rhe (q * 100) : ℚ) / 100

/-- Match of `RAM (\d+)/(\d+)MB` anchored at the head of the input; the
greedy digit runs are maximal runs because a backtracked shorter run would
leave a digit where the following literal is required. -/
def matchRAMAt (l : List Char) : Option (ℕ × ℕ) :=
  match l with
  | 'R' :: 'A' :: 'M' :: ' ' :: rest =>
    let p1 := takeDigits rest
    if p1.1 = [] then none
    else
      match p1.2 with
      | '/' :: r2 =>
        let p2 := takeDigits r2
        if p2.1 = [] then none
        else
          match p2.2 with
          | 'M' :: 'B' :: _ => some (digitsToNat p1.1, digitsToNat p2.1)
          | _ => none
      | _ => none
  | _ => none

/-- The `re.search` scan for the RAM pattern: leftmost match. -/
def searchRAM : List Char → Option (ℕ × ℕ)
  | [] => matchRAMAt []
  | c :: cs =>
    match matchRAMAt (c :: cs) with
    | some r => some r
    | none => searchRAM cs

/-- Lazy capture of `CPU \[(.*?)\]` after the opening bracket: everything up
to the first closing bracket, failing at end of input or a newline (which
`.` does not match). -/
def captureToBracket : List Char → Option (List Char)
  | [] => none
  | c :: cs =>
    if c = ']' then some []
    else if c = '\n' then none
    else
      match captureToBracket cs with
      | some cap => some (c :: cap)
      | none => none

/-- Match of `CPU \[(.*?)\]` anchored at the head of the input. -/
def matchCPUAt (l : List Char) : Option (List Char) :=
  match l with
  | 'C' :: 'P' :: 'U' :: ' ' :: '[' :: rest => captureToBracket rest
  | _ => none

/-- The `re.search` scan for the CPU pattern: leftmost position at which the
bracketed list closes. -/
def searchCPU : List Char → Option (List Char)
  | [] => matchCPUAt []
  | c :: cs =>
    match matchCPUAt (c :: cs) with
    | some r => some r
    | none => searchCPU cs

/-- Scanner state for `re.findall(r"(\d+)%@\d+", ...)`: outside a candidate,
inside the captured percent digits, after `%`, after `@` with no frequency
digit yet, or inside the frequency digits. -/
inductive PctSt where
  | scan : PctSt
  | digits (run : List Char) : PctSt
  | pct (run : List Char) : PctSt
  | freq0 (run : List Char) : PctSt
  | freq (run : List Char) : PctSt

/-- One scanner transition; emits the finished capture when a complete match
ends before the current character. -/
def pctStep (s : PctSt) (c : Char) : PctSt × Option ℕ :=
  match s with
  | PctSt.scan => if c.isDigit then (PctSt.digits [c], none) else (PctSt.scan, none)
  | PctSt.digits run =>
    if c.isDigit then (PctSt.digits (run ++ [c]), none)
    else if c = '%' then (PctSt.pct run, none)
    else (PctSt.scan, none)
  | PctSt.pct run =>
    if c = '@' then (PctSt.freq0 run, none)
    else if c.isDigit then (PctSt.digits [c], none)
    else (PctSt.scan, none)
  | PctSt.freq0 run =>
    if c.isDigit then (PctSt.freq run, none)
    else (PctSt.scan, none)
  | PctSt.freq run =>
    if c.isDigit then (PctSt.freq run, none)
    else (PctSt.scan, some (digitsToNat run))

/-- Driver of the scanner; a match still open at end of input is complete
exactly in the frequency-digits state. -/
def pctRun (s : PctSt) : List Char → List ℕ
  | [] =>
    (match s with
     | PctSt.freq run => [digitsToNat run]
     | _ => [])
  | c :: cs =>
    match pctStep s c with
    | (s2, some v) => v :: pctRun s2 cs
    | (s2, none) => pctRun s2 cs

/-- All `(\d+)%@\d+` captures of a CPU core list, leftmost non-overlapping. -/
def pctEntries (l : List Char) : List ℕ :=
  pctRun PctSt.scan l

/-- Match of `GR3D_FREQ (\d+)%@\d+` anchored at the head of the input. -/
def matchGPUAt (l : List Char) : Option ℕ :=
  match l with
  | 'G' :: 'R' :: '3' :: 'D' :: '_' :: 'F' :: 'R' :: 'E' :: 'Q' :: ' ' :: rest =>
    let p1 := takeDigits rest
    if p1.1 = [] then none
    else
      match p1.2 with
      | '%' :: '@' :: r2 =>
        let p2 := takeDigits r2
        if p2.1 = [] then none else some (digitsToNat p1.1)
      | _ => none
  | _ => none

/-- The `re.search` scan for the GPU pattern. -/
def searchGPU : List Char → Option ℕ
  | [] => matchGPUAt []
  | c :: cs =>
    match matchGPUAt (c :: cs) with
    | some r => some r
    | none => searchGPU cs

/-- Match of `SOC_TEMP (\d+\.\d+)C` anchored at the head of the input; the
captured decimal is converted the way Python `float` reads it. -/
def matchTempAt (l : List Char) : Option ℚ :=
  match l with
  | 'S' :: 'O' :: 'C' :: '_' :: 'T' :: 'E' :: 'M' :: 'P' :: ' ' :: rest =>
    let p1 := takeDigits rest
    if p1.1 = [] then none
    else
      match p1.2 with
      | '.' :: r2 =>
        let p2 := takeDigits r2
        if p2.1 = [] then none
        else
          match p2.2 with
          | 'C' :: _ =>
            some ((digitsToNat p1.1 : ℚ) + (digitsToNat p2.1 : ℚ) / (10 : ℚ) ^ p2.1.length)
          | _ => none
      | _ => none
  | _ => none

/-- The `re.search` scan for the temperature pattern. -/
def searchTemp : List Char → Option ℚ
  | [] => matchTempAt []
  | c :: cs =>
    match matchTempAt (c :: cs) with
    | some r => some r
    | none => searchTemp cs

/-- The `parse_tegrastats` helper: four independent pattern extractions over
one diagnostic line; the RAM match populates its four fields together, the
CPU average exists only for a non-empty core list. -/
def parse_tegrastats (line : List Char) : Stats :=
  let ram := searchRAM line
  let cpu :=
    match searchCPU line with
    | none => none
    | some cap =>
      let ps := pctEntries cap
      if ps = [] then none
      else some (pyRound2 ((ps.sum : ℚ) / (ps.length : ℚ)))
  { ram_used_mb := ram.map (fun p => p.1),
    ram_total_mb := ram.map (fun p => p.2),
    ram_used_gb := ram.map (fun p => pyRound2 ((p.1 : ℚ) / 1024)),
    ram_total_gb := ram.map (fun p => pyRound2 ((p.2 : ℚ) / 1024)),
    cpu_usage_percent := cpu,
    gpu_usage_percent := searchGPU line,
    soc_temp_c := searchTemp line }

/-- Truth of Python `not parsed_stats`: the stats dictionary is empty exactly
when no extraction inserted a key. -/
def statsEmpty (s : Stats) : Bool :=
  s.ram_used_mb.isNone && s.ram_total_mb.isNone && s.ram_used_gb.isNone
    && s.ram_total_gb.isNone && s.cpu_usage_percent.isNone
    && s.gpu_usage_percent.isNone && s.soc_temp_c.isNone

/-- Parse-and-classify step of the `/api/system-stats` endpoint on a
successful `tegrastats` invocation: strip the captured stdout, parse it, and
answer HTTP 500 when nothing was parsed. -/
def get_system_stats (stdout : List Char) : Except String Stats :=
  let line := jsTrim stdout
  let s := parse_tegrastats line
  if statsEmpty s then Except.error ("Failed to parse tegrastats output")
  else Except.ok s

lemma rhe_eq_of_lt_half (y : ℚ) (n : ℤ) (h1 : (n : ℚ) ≤ y) (h2 : y < (n : ℚ) + 1 / 2) :
    rhe y = n := by
  have hf : ⌊y⌋ = n := Int.floor_eq_iff.mpr ⟨h1, by linarith⟩
  unfold rhe
  rw [hf, if_pos]
  linarith

lemma rhe_eq_of_half_lt (y : ℚ) (n : ℤ) (h1 : (n : ℚ) + 1 / 2 < y) (h2 : y < (n : ℚ) + 1) :
    rhe y = n + 1 := by
  have hf : ⌊y⌋ = n := Int.floor_eq_iff.mpr ⟨by linarith, h2⟩
  unfold rhe
  rw [hf, if_neg (by push_neg; linarith), if_pos (by linarith)]

lemma pyRound2_eq_of_lt_half (q : ℚ) (n : ℤ) (h1 : (n : ℚ) ≤ q * 100)
    (h2 : q * 100 < (n : ℚ) + 1 / 2) : pyRound2 q = (n : ℚ) / 100 := by
  unfold pyRound2
  rw [rhe_eq_of_lt_half (q * 100) n h1 h2]

lemma jsRound_eq (q : ℚ) (n : ℤ) (h1 : (n : ℚ) ≤ q + 1 / 2) (h2 : q + 1 / 2 < (n : ℚ) + 1) :
    jsRound q = n := by
  unfold jsRound
  exact Int.floor_eq_iff.mpr ⟨h1, h2⟩

/-- Absence of a leading digit, as seen by a maximal digit run. -/
def noLeadDigit : List Char → Prop
  | [] => True
  | c :: _ => c.isDigit = false

lemma takeDigits_append (d r : List Char) (hd : ∀ c ∈ d, c.isDigit)
    (hr : noLeadDigit r) : takeDigits (d ++ r) = (d, r) := by
  induction d with
  | nil =>
    simp only [List.nil_append]
    cases r with
    | nil => rfl
    | cons c cs =>
      simp only [noLeadDigit] at hr
      simp [takeDigits, hr]
  | cons c cs ih =>
    have hc : c.isDigit := hd c (by simp)
    simp only [List.cons_append, takeDigits, hc, if_pos, List.append_eq]
    rw [ih (fun x hx => hd x (by simp [hx]))]

lemma splitNl_ne_nil (l : List Char) : splitNl l ≠ [] := by
  cases l with
  | nil => simp [splitNl]
  | cons c cs =>
    simp only [splitNl]
    by_cases h : c = '\n'
    · simp [h]
    · simp only [h, if_false]
      cases splitNl cs with
      | nil => simp
      | cons h t => simp

lemma splitNl_append_nl (a rest : List Char) (h : '\n' ∉ a) :
    splitNl (a ++ '\n' :: rest) = a :: splitNl rest := by
  induction a with
  | nil => simp [splitNl]
  | cons c cs ih =>
    have hc : c ≠ '\n' := fun hc => h (by simp [hc])
    have hcs : '\n' ∉ cs := fun hx => h (by simp [hx])
    simp only [List.cons_append, splitNl, hc, if_false, List.append_eq]
    rw [ih hcs]

/-- C9: while a chat or pull stream is in flight (`isStreaming` set), a new
chat submission is rejected at the boundary: the application state is
unchanged and no request is issued, so at most one chat stream is ever
active. -/
theorem chat_submit_rejected_while_streaming (st : AppState) (chunks : List (List Char))
    (transportFail : Bool) (h : st.isStreaming = true) :
    handleChatSubmit st chunks transportFail = (st, false) := by
  simp [handleChatSubmit, h]

theorem chat_submit_rejected_while_streaming_witness :
    handleChatSubmit
        { chatHistory := [{ role := ("user"), content := ("hello") }],
          prompt := ("next question"), isStreaming := true,
          selectedModel := ("gemma:2b"),
          selectedModelInfo := some { name := ("gemma:2b"), size := some 1000000000 } }
        [(("\x7b\"message\":\x7b\"content\":\"x\"\x7d\x7d\n").toList)] false
      = ({ chatHistory := [{ role := ("user"), content := ("hello") }],
           prompt := ("next question"), isStreaming := true,
           selectedModel := ("gemma:2b"),
           selectedModelInfo := some { name := ("gemma:2b"), size := some 1000000000 } }, false) :=
  chat_submit_rejected_while_streaming _ _ _ rfl

/-- C4 counterexample: on a mid-stream transport failure after the chunk
carrying `Hello` was accumulated, the handler appends the error message but
the partially accumulated assistant message remains visible in the chat
history, contradicting the claim that it is discarded. -/
theorem chat_error_keeps_partial_content :
    chatStreamHistory [] ("hi")
        [(("\x7b\"message\":\x7b\"content\":\"Hello\"\x7d\x7d\n").toList)] true
      = [{ role := ("user"), content := ("hi") },
         { role := ("assistant"), content := ("Hello") },
         { role := ("assistant"), content := ("Sorry, I encountered an error.") }]
    ∧ ({ role := ("assistant"), content := ("Hello") } : ChatMessage)
        ∈ chatStreamHistory [] ("hi")
            [(("\x7b\"message\":\x7b\"content\":\"Hello\"\x7d\x7d\n").toList)] true := by
  exact ⟨rfl, by decide⟩

/-- C4 amended: a chat stream that fails mid-stream appends exactly one
terminal assistant message reporting the failure; the history up to that
point — including the partially accumulated assistant content — is kept, not
discarded. -/
theorem chat_failure_appends_single_error (history : List ChatMessage) (prompt : String)
    (chunks : List (List Char)) :
    chatStreamHistory history prompt chunks true
      = chatStreamHistory history prompt chunks false
        ++ [{ role := ("assistant"), content := ("Sorry, I encountered an error.") }] := by
  simp [chatStreamHistory]

/-- C10: a pull record whose `total` and `completed` are both present but one
of them is the number `0` takes the status-only path: the percentage is
untouched, a truthy `status` is copied verbatim, and otherwise the state is
unchanged. -/
theorem pull_zero_progress_acts_status_only (st : PullState) (j : Json) (jt jc : Json)
    (ht : jfield j ("total") = some jt) (hc : jfield j ("completed") = some jc)
    (hz : jt = Json.num 0 ∨ jc = Json.num 0) :
    (pullStep st j).percent = st.percent
    ∧ (∀ s : String, jfield j ("status") = some (Json.str s) → s ≠ ("") →
        pullStep st j = { st with status := s })
    ∧ (jtruthyO (jfield j ("status")) = false → pullStep st j = st) := by
  have hcond : (jtruthyO (jfield j ("total")) && jtruthyO (jfield j ("completed"))) = false := by
    rcases hz with h | h
    · rw [ht, h]; simp [jtruthyO, jtruthy]
    · rw [hc, h]; simp [jtruthyO, jtruthy]
  refine ⟨?_, ?_, ?_⟩
  · unfold pullStep
    rw [hcond]
    by_cases hs : jtruthyO (jfield j ("status")) = true
    · simp [hs]
    · simp [hs]
  · intro s hsf hne
    unfold pullStep
    rw [hcond, hsf]
    simp [jtruthyO, jtruthy, jstrD, hne]
  · intro hs
    unfold pullStep
    rw [hcond, hs]
    simp

theorem pull_zero_progress_acts_status_only_witness :
    pullStep { status := ("Downloading... 42%"), percent := some 42 }
        (Json.obj [(("total"), Json.num 9), (("completed"), Json.num 0),
                   (("status"), Json.str ("verifying digest"))])
      = { status := ("verifying digest"), percent := some 42 } := by
  have h := pull_zero_progress_acts_status_only
    { status := ("Downloading... 42%"), percent := some 42 }
    (Json.obj [(("total"), Json.num 9), (("completed"), Json.num 0),
               (("status"), Json.str ("verifying digest"))])
    (Json.num 9) (Json.num 0) rfl rfl (Or.inr rfl)
  exact h.2.1 ("verifying digest") rfl (by decide)

/-- C3 counterexample: a record with `total` and `completed` both present but
`completed = 0` does not receive `percent = round(100 * completed / total)`
(which would be `0`); presence is tested by truthiness, so the record falls
through to the status branch. -/
theorem pull_percent_skipped_at_zero_completed :
    (pullStep { status := ("p"), percent := some 50 }
        (Json.obj [(("total"), Json.num 3), (("completed"), Json.num 0),
                   (("status"), Json.str ("verifying"))])).percent
      ≠ some (jsRound ((0 : ℚ) / 3 * 100)) := by
  have h0 : jsRound ((0 : ℚ) / 3 * 100) = 0 := jsRound_eq _ 0 (by norm_num) (by norm_num)
  rw [h0]
  have h := pull_zero_progress_acts_status_only
    { status := ("p"), percent := some 50 }
    (Json.obj [(("total"), Json.num 3), (("completed"), Json.num 0),
               (("status"), Json.str ("verifying"))])
    (Json.num 3) (Json.num 0) rfl rfl (Or.inr rfl)
  rw [h.2.1 ("verifying") rfl (by decide)]
  decide

/-- C3 amended: a pull record whose `total` and `completed` are present and
truthy (nonzero numbers) sets `percent = round(100 * completed / total)` and
the status string `Downloading... N%`, overriding any previous percent; a
record without truthy progress fields but with a truthy (non-empty) `status`
sets the status verbatim and leaves the percent unchanged. -/
theorem pull_progress_truthy_aggregation :
    (∀ (st : PullState) (j : Json) (t c : ℚ),
      jfield j ("total") = some (Json.num t) → jfield j ("completed") = some (Json.num c) →
      t ≠ 0 → c ≠ 0 →
      pullStep st j
        = { status := ("Downloading... ") ++ toString (jsRound (c / t * 100)) ++ ("%"),
            percent := some (jsRound (c / t * 100)) })
    ∧ (∀ (st : PullState) (j : Json) (s : String),
      (jtruthyO (jfield j ("total")) && jtruthyO (jfield j ("completed"))) = false →
      jfield j ("status") = some (Json.str s) → s ≠ ("") →
      pullStep st j = { st with status := s }) := by
  constructor
  · intro st j t c ht hc ht0 hc0
    unfold pullStep
    rw [ht, hc]
    simp [jtruthyO, jtruthy, jnumD, ht0, hc0]
  · intro st j s hcond hsf hne
    unfold pullStep
    rw [hcond, hsf]
    simp [jtruthyO, jtruthy, jstrD, hne]

theorem pull_progress_truthy_aggregation_witness :
    pullStep { status := ("x"), percent := none }
        (Json.obj [(("total"), Json.num 3), (("completed"), Json.num 1)])
      = { status := ("Downloading... 33%"), percent := some 33 }
    ∧ pullStep { status := ("x"), percent := none }
        (Json.obj [(("total"), Json.num 3), (("completed"), Json.num 2)])
      = { status := ("Downloading... 67%"), percent := some 67 } := by
  have e1 : jsRound ((1 : ℚ) / 3 * 100) = 33 := jsRound_eq _ 33 (by norm_num) (by norm_num)
  have e2 : jsRound ((2 : ℚ) / 3 * 100) = 67 := jsRound_eq _ 67 (by norm_num) (by norm_num)
  constructor
  · have h := pull_progress_truthy_aggregation.1 { status := ("x"), percent := none }
      (Json.obj [(("total"), Json.num 3), (("completed"), Json.num 1)]) 3 1 rfl rfl
      (by norm_num) (by norm_num)
    rw [h, e1]
    rfl
  · have h := pull_progress_truthy_aggregation.1 { status := ("x"), percent := none }
      (Json.obj [(("total"), Json.num 3), (("completed"), Json.num 2)]) 3 2 rfl rfl
      (by norm_num) (by norm_num)
    rw [h, e2]
    rfl

/-- C8: the memory admission guard admits when no telemetry sample or no
model is selected; otherwise, with `freeGb = ramTotalGb - ramUsedGb`, it
admits exactly when `freeGb` exceeds 1.5 times the model size in gigabytes —
in particular 6 GB free denies a 4e9-byte model and admits a 3.9e9-byte
model. -/
theorem memory_admission_guard_spec :
    (∀ m : Option ModelInfo, hasSufficientMemory none m = true)
    ∧ (∀ s : Stats, hasSufficientMemory (some s) none = true)
    ∧ (∀ (s : Stats) (m : ModelInfo) (t u sz : ℚ),
        s.ram_total_gb = some t → s.ram_used_gb = some u → m.size = some sz →
        (hasSufficientMemory (some s) (some m) = true ↔ t - u > sz / 1000000000 * 1.5))
    ∧ hasSufficientMemory (some { ram_total_gb := some 8, ram_used_gb := some 2 })
        (some { name := ("m"), size := some 4000000000 }) = false
    ∧ hasSufficientMemory (some { ram_total_gb := some 8, ram_used_gb := some 2 })
        (some { name := ("m"), size := some 3900000000 }) = true := by
  refine ⟨fun m => rfl, fun s => rfl, ?_, ?_, ?_⟩
  · intro s m t u sz ht hu hsz
    simp [hasSufficientMemory, ht, hu, hsz]
  · simp only [hasSufficientMemory, Option.getD_some]
    rw [decide_eq_false_iff_not]
    norm_num
  · simp only [hasSufficientMemory, Option.getD_some]
    rw [decide_eq_true_eq]
    norm_num

theorem memory_admission_guard_spec_witness :
    hasSufficientMemory (some { ram_total_gb := some 8, ram_used_gb := some 2 })
      (some { name := ("m"), size := some 3900000000 }) = true :=
  (memory_admission_guard_spec.2.2.1
      { ram_total_gb := some 8, ram_used_gb := some 2 }
      { name := ("m"), size := some 3900000000 } 8 2 3900000000 rfl rfl rfl).mpr
    (by norm_num)

/-- C7: the system-stats endpoint never returns success with a sample whose
fields are all absent, and a diagnostic line matching none of the four
extraction patterns yields the distinct parse-failure error. -/
theorem system_stats_rejects_empty_sample :
    (∀ (stdout : List Char) (s : Stats),
        get_system_stats stdout = Except.ok s → statsEmpty s = false)
    ∧ (∀ stdout : List Char,
        searchRAM (jsTrim stdout) = none → searchCPU (jsTrim stdout) = none →
        searchGPU (jsTrim stdout) = none → searchTemp (jsTrim stdout) = none →
        get_system_stats stdout = Except.error ("Failed to parse tegrastats output")) := by
  constructor
  · intro stdout s h
    unfold get_system_stats at h
    by_cases he : statsEmpty (parse_tegrastats (jsTrim stdout)) = true
    · rw [if_pos he] at h
      exact absurd h (by simp)
    · rw [if_neg he] at h
      have hs : s = parse_tegrastats (jsTrim stdout) := (Except.ok.injEq _ _).mp h.symm
      rw [hs]
      exact Bool.not_eq_true _ ▸ he
  · intro stdout h1 h2 h3 h4
    unfold get_system_stats
    rw [if_pos]
    simp [statsEmpty, parse_tegrastats, h1, h2, h3, h4]

theorem system_stats_rejects_empty_sample_witness :
    get_system_stats (("N/A").toList)
      = Except.error ("Failed to parse tegrastats output") :=
  system_stats_rejects_empty_sample.2 (("N/A").toList) rfl rfl rfl rfl

/-- C1: the chat and pull handlers split each byte chunk on newlines
independently, with no partial-line buffering, so the decoded record
sequence depends on where the transport splits the text: the same NDJSON
text delivered whole yields its record, while the same text split mid-line
yields no record for the chat handler and a thrown parse error for the pull
handler. -/
theorem stream_records_depend_on_chunk_split :
    (("\x7b\"message\":\x7b\"con").toList ++ ("tent\":\"Hi\"\x7d\x7d\n").toList
        = ("\x7b\"message\":\x7b\"content\":\"Hi\"\x7d\x7d\n").toList)
    ∧ chatRecords [(("\x7b\"message\":\x7b\"content\":\"Hi\"\x7d\x7d\n").toList)]
        = [Json.obj [(("message"), Json.obj [(("content"), Json.str ("Hi"))])]]
    ∧ chatRecords [(("\x7b\"message\":\x7b\"con").toList), (("tent\":\"Hi\"\x7d\x7d\n").toList)]
        = []
    ∧ (("\x7b\"status\":\"pul").toList ++ ("ling\"\x7d\n").toList
        = ("\x7b\"status\":\"pulling\"\x7d\n").toList)
    ∧ pullRecords [(("\x7b\"status\":\"pulling\"\x7d\n").toList)]
        = ([Json.obj [(("status"), Json.str ("pulling"))]], false)
    ∧ pullRecords [(("\x7b\"status\":\"pul").toList), (("ling\"\x7d\n").toList)]
        = ([], true) :=
  ⟨rfl, rfl, rfl, rfl, rfl, rfl⟩

/-- C2 counterexample: in the pull handler a malformed line between two valid
lines throws out of the per-line loop — only the first record is decoded, the
rest of the stream is abandoned, and the surrounding pull operation ends in
the terminal error status rather than yielding the two valid records. -/
theorem pull_throws_on_malformed_line :
    pullRecords [(("\x7b\"status\":\"a\"\x7d\nnot json\n\x7b\"status\":\"b\"\x7d\n").toList)]
      = ([Json.obj [(("status"), Json.str ("a"))]], true)
    ∧ handlePullModel ("gemma:2b") { status := (""), percent := none }
        [(("\x7b\"status\":\"a\"\x7d\nnot json\n\x7b\"status\":\"b\"\x7d\n").toList)] false
      = { status := ("Error pulling model."), percent := none } :=
  ⟨rfl, rfl⟩

lemma searchRAM_cons (c : Char) (cs : List Char) :
    searchRAM (c :: cs)
      = match matchRAMAt (c :: cs) with
        | some r => some r
        | none => searchRAM cs := rfl

lemma matchRAMAt_build (d1 d2 post : List Char) (h1 : d1 ≠ []) (hd1 : ∀ c ∈ d1, c.isDigit)
    (h2 : d2 ≠ []) (hd2 : ∀ c ∈ d2, c.isDigit) :
    matchRAMAt ('R' :: 'A' :: 'M' :: ' ' :: (d1 ++ '/' :: (d2 ++ 'M' :: 'B' :: post)))
      = some (digitsToNat d1, digitsToNat d2) := by
  have t1 : takeDigits (d1 ++ '/' :: (d2 ++ 'M' :: 'B' :: post))
      = (d1, '/' :: (d2 ++ 'M' :: 'B' :: post)) :=
    takeDigits_append _ _ hd1 (by simp only [noLeadDigit]; decide)
  have t2 : takeDigits (d2 ++ 'M' :: 'B' :: post) = (d2, 'M' :: 'B' :: post) :=
    takeDigits_append _ _ hd2 (by simp only [noLeadDigit]; decide)
  simp only [matchRAMAt, t1, t2]
  simp [h1, h2]

lemma searchRAM_isSome_append (pre rest : List Char) (h : (matchRAMAt rest).isSome = true) :
    (searchRAM (pre ++ rest)).isSome = true := by
  induction pre with
  | nil =>
    simp only [List.nil_append]
    cases rest with
    | nil => exact absurd h (by decide)
    | cons c cs =>
      rw [searchRAM_cons]
      cases hm : matchRAMAt (c :: cs) with
      | some r => simp
      | none => rw [hm] at h; simp at h
  | cons c pre2 ih =>
    simp only [List.cons_append]
    rw [searchRAM_cons]
    cases hm : matchRAMAt (c :: (pre2 ++ rest)) with
    | some r => simp
    | none => simpa using ih

/-- C5: the RAM pattern `RAM used/totalMB` populates the four RAM fields
together — megabyte values as matched, gigabyte values divided by 1024 and
rounded to two decimals — wherever the pattern occurs in the line, and none
of the four fields when the search fails; on the sample line with
`RAM 1683/7762MB` the gigabyte fields are 1.64 and 7.58. -/
theorem ram_parse_fields_all_or_none :
    (∀ (pre d1 d2 post : List Char),
        d1 ≠ [] → (∀ c ∈ d1, c.isDigit) → d2 ≠ [] → (∀ c ∈ d2, c.isDigit) →
        (searchRAM (pre ++ 'R' :: 'A' :: 'M' :: ' ' ::
          (d1 ++ '/' :: (d2 ++ 'M' :: 'B' :: post)))).isSome = true)
    ∧ (∀ (l : List Char) (u t : ℕ), searchRAM l = some (u, t) →
        (parse_tegrastats l).ram_used_mb = some u
        ∧ (parse_tegrastats l).ram_total_mb = some t
        ∧ (parse_tegrastats l).ram_used_gb = some (pyRound2 ((u : ℚ) / 1024))
        ∧ (parse_tegrastats l).ram_total_gb = some (pyRound2 ((t : ℚ) / 1024)))
    ∧ (∀ l : List Char, searchRAM l = none →
        (parse_tegrastats l).ram_used_mb = none
        ∧ (parse_tegrastats l).ram_total_mb = none
        ∧ (parse_tegrastats l).ram_used_gb = none
        ∧ (parse_tegrastats l).ram_total_gb = none)
    ∧ (parse_tegrastats (("RAM 1683/7762MB SWAP 0/3881MB CPU [11%@1113,8%@1113,9%@1113] EMC_FREQ 0% GR3D_FREQ 15%@114 SOC_TEMP 35.5C").toList)).ram_used_gb
        = some ((164 : ℚ) / 100)
    ∧ (parse_tegrastats (("RAM 1683/7762MB SWAP 0/3881MB CPU [11%@1113,8%@1113,9%@1113] EMC_FREQ 0% GR3D_FREQ 15%@114 SOC_TEMP 35.5C").toList)).ram_total_gb
        = some ((758 : ℚ) / 100) := by
  refine ⟨?_, ?_, ?_, ?_, ?_⟩
  · intro pre d1 d2 post h1 hd1 h2 hd2
    exact searchRAM_isSome_append pre _
      (by rw [matchRAMAt_build d1 d2 post h1 hd1 h2 hd2]; rfl)
  · intro l u t h
    refine ⟨?_, ?_, ?_, ?_⟩ <;> simp [parse_tegrastats, h]
  · intro l h
    refine ⟨?_, ?_, ?_, ?_⟩ <;> simp [parse_tegrastats, h]
  · have hs : searchRAM (("RAM 1683/7762MB SWAP 0/3881MB CPU [11%@1113,8%@1113,9%@1113] EMC_FREQ 0% GR3D_FREQ 15%@114 SOC_TEMP 35.5C").toList)
        = some (1683, 7762) := rfl
    have e : pyRound2 (((1683 : ℕ) : ℚ) / 1024) = ((164 : ℤ) : ℚ) / 100 :=
      pyRound2_eq_of_lt_half _ 164 (by push_cast; norm_num) (by push_cast; norm_num)
    simp only [parse_tegrastats, hs, Option.map_some']
    rw [e]
    norm_num
  · have hs : searchRAM (("RAM 1683/7762MB SWAP 0/3881MB CPU [11%@1113,8%@1113,9%@1113] EMC_FREQ 0% GR3D_FREQ 15%@114 SOC_TEMP 35.5C").toList)
        = some (1683, 7762) := rfl
    have e : pyRound2 (((7762 : ℕ) : ℚ) / 1024) = ((758 : ℤ) : ℚ) / 100 :=
      pyRound2_eq_of_lt_half _ 758 (by push_cast; norm_num) (by push_cast; norm_num)
    simp only [parse_tegrastats, hs, Option.map_some']
    rw [e]
    norm_num

theorem ram_parse_fields_all_or_none_witness :
    (searchRAM (("X RAM 42/99MB tail").toList)).isSome = true :=
  ram_parse_fields_all_or_none.1 (("X ").toList) (['4', '2']) (['9', '9'])
    ((" tail").toList) (by decide) (by decide) (by decide) (by decide)

/-- Fixed `%@frequency` suffix used when rendering a synthetic per-core
entry. -/
def pctFreqTail : List Char :=
  ['%', '@', '1', '1', '1', '3']

/-- Canonical comma-separated rendering of a list of per-core percent digit
strings, as they appear inside the brackets of a tegrastats CPU section. -/
def renderCores : List (List Char) → List Char
  | [] => []
  | [d] => d ++ pctFreqTail
  | d :: rest => d ++ pctFreqTail ++ ',' :: renderCores rest

lemma digit_ne_bracket {c : Char} (h : c.isDigit = true) : c ≠ ']' ∧ c ≠ '\n' := by
  constructor
  · rintro rfl; exact absurd h (by decide)
  · rintro rfl; exact absurd h (by decide)

lemma renderCores_chars (cores : List (List Char))
    (hall : ∀ d ∈ cores, ∀ c ∈ d, c.isDigit = true) :
    ∀ c ∈ renderCores cores, c ≠ ']' ∧ c ≠ '\n' := by
  induction cores with
  | nil => simp [renderCores]
  | cons d rest ih =>
    have hd : ∀ c ∈ d, c.isDigit = true := hall d (by simp)
    have htail : ∀ c ∈ pctFreqTail, c ≠ ']' ∧ c ≠ '\n' := by decide
    cases rest with
    | nil =>
      intro c hc
      rcases List.mem_append.mp (by simpa [renderCores] using hc) with h | h
      · exact digit_ne_bracket (hd c h)
      · exact htail c h
    | cons e rest2 =>
      intro c hc
      have hc2 : c ∈ (d ++ pctFreqTail) ++ ',' :: renderCores (e :: rest2) := by
        simpa [renderCores, List.append_assoc] using hc
      rcases List.mem_append.mp hc2 with h | h
      · rcases List.mem_append.mp h with h3 | h3
        · exact digit_ne_bracket (hd c h3)
        · exact htail c h3
      · rcases List.mem_cons.mp h with h3 | h3
        · subst h3; exact ⟨by decide, by decide⟩
        · exact ih (fun x hx => hall x (by simp [hx])) c h3

lemma captureToBracket_append (x rest : List Char)
    (hx : ∀ c ∈ x, c ≠ ']' ∧ c ≠ '\n') :
    captureToBracket (x ++ ']' :: rest) = some x := by
  induction x with
  | nil => simp [captureToBracket]
  | cons c cs ih =>
    obtain ⟨h1, h2⟩ := hx c (by simp)
    simp only [List.cons_append, captureToBracket, h1, h2, if_false, List.append_eq]
    rw [ih (fun a ha => hx a (by simp [ha]))]

lemma searchCPU_cons (c : Char) (cs : List Char) :
    searchCPU (c :: cs)
      = match matchCPUAt (c :: cs) with
        | some r => some r
        | none => searchCPU cs := rfl

lemma pctRun_digits_run (d : List Char) :
    ∀ (run rest : List Char), (∀ c ∈ d, c.isDigit = true) →
      pctRun (PctSt.digits run) (d ++ rest) = pctRun (PctSt.digits (run ++ d)) rest := by
  induction d with
  | nil => intro run rest _; simp
  | cons c cs ih =>
    intro run rest hd
    have hc : c.isDigit = true := hd c (by simp)
    simp only [List.cons_append, pctRun, pctStep, hc, if_pos, List.append_eq]
    rw [ih (run ++ [c]) rest (fun x hx => hd x (by simp [hx]))]
    simp

lemma pctRun_scan_digits (d rest : List Char) (hne : d ≠ [])
    (hd : ∀ c ∈ d, c.isDigit = true) :
    pctRun PctSt.scan (d ++ rest) = pctRun (PctSt.digits d) rest := by
  cases d with
  | nil => exact absurd rfl hne
  | cons c cs =>
    have hc : c.isDigit = true := hd c (by simp)
    simp only [List.cons_append, pctRun, pctStep, hc, if_pos, List.append_eq]
    rw [pctRun_digits_run cs [c] rest (fun x hx => hd x (by simp [hx]))]
    simp

lemma pctRun_tail (d rest : List Char) :
    pctRun (PctSt.digits d) (pctFreqTail ++ rest) = pctRun (PctSt.freq d) rest := by
  have h1 : ('%').isDigit = false := by decide
  have h2 : ('@').isDigit = false := by decide
  have h3 : ('1').isDigit = true := by decide
  have h4 : ('3').isDigit = true := by decide
  simp [pctFreqTail, pctRun, pctStep, h1, h2, h3, h4]

lemma pctRun_freq_comma (d rest : List Char) :
    pctRun (PctSt.freq d) (',' :: rest) = digitsToNat d :: pctRun PctSt.scan rest := by
  have h : (',').isDigit = false := by decide
  simp [pctRun, pctStep, h]

lemma pctEntries_render (cores : List (List Char)) (hne : cores ≠ [])
    (hall : ∀ d ∈ cores, d ≠ [] ∧ ∀ c ∈ d, c.isDigit = true) :
    pctEntries (renderCores cores) = cores.map digitsToNat := by
  induction cores with
  | nil => exact absurd rfl hne
  | cons d rest ih =>
    obtain ⟨hd1, hd2⟩ := hall d (by simp)
    cases rest with
    | nil =>
      show pctRun PctSt.scan (renderCores [d]) = [digitsToNat d]
      rw [show renderCores [d] = d ++ pctFreqTail from rfl]
      rw [show (d ++ pctFreqTail : List Char) = d ++ (pctFreqTail ++ []) by simp]
      rw [pctRun_scan_digits d _ hd1 hd2, pctRun_tail d []]
      rfl
    | cons e rest2 =>
      have hrest : (e :: rest2 : List (List Char)) ≠ [] := by simp
      have hall2 : ∀ x ∈ e :: rest2, x ≠ [] ∧ ∀ c ∈ x, c.isDigit = true :=
        fun x hx => hall x (by simp [hx])
      show pctRun PctSt.scan (renderCores (d :: e :: rest2)) = _
      rw [show renderCores (d :: e :: rest2)
            = d ++ pctFreqTail ++ ',' :: renderCores (e :: rest2) from rfl]
      rw [List.append_assoc, pctRun_scan_digits d _ hd1 hd2, pctRun_tail,
        pctRun_freq_comma]
      rw [show pctRun PctSt.scan (renderCores (e :: rest2))
            = pctEntries (renderCores (e :: rest2)) from rfl]
      rw [ih hrest hall2]
      simp

/-- C6: the CPU average is taken over however many per-core entries the
bracketed list holds — for any non-empty list of digit-string cores the
parsed value is the two-decimal rounding of their mean — and the field is
omitted when the pattern is absent or the core list is empty; on the sample
line with cores 11, 8, 9 the value is 9.33. -/
theorem cpu_parse_average_over_cores :
    (∀ (cores : List (List Char)) (post : List Char),
        cores ≠ [] → (∀ d ∈ cores, d ≠ [] ∧ ∀ c ∈ d, c.isDigit = true) →
        (parse_tegrastats ('C' :: 'P' :: 'U' :: ' ' :: '[' ::
            (renderCores cores ++ ']' :: post))).cpu_usage_percent
          = some (pyRound2 (((cores.map digitsToNat).sum : ℚ) / (cores.length : ℚ))))
    ∧ (∀ l : List Char, searchCPU l = none → (parse_tegrastats l).cpu_usage_percent = none)
    ∧ (∀ l cap : List Char, searchCPU l = some cap → pctEntries cap = [] →
        (parse_tegrastats l).cpu_usage_percent = none)
    ∧ (parse_tegrastats (("RAM 1683/7762MB SWAP 0/3881MB CPU [11%@1113,8%@1113,9%@1113] EMC_FREQ 0% GR3D_FREQ 15%@114 SOC_TEMP 35.5C").toList)).cpu_usage_percent
        = some ((933 : ℚ) / 100) := by
  refine ⟨?_, ?_, ?_, ?_⟩
  · intro cores post hne hall
    have hchars : ∀ c ∈ renderCores cores, c ≠ ']' ∧ c ≠ '\n' :=
      renderCores_chars cores (fun d hd => (hall d hd).2)
    have hcap : captureToBracket (renderCores cores ++ ']' :: post)
        = some (renderCores cores) := captureToBracket_append _ _ hchars
    have hm : matchCPUAt ('C' :: 'P' :: 'U' :: ' ' :: '[' ::
        (renderCores cores ++ ']' :: post)) = some (renderCores cores) := by
      simp [matchCPUAt, hcap]
    have hs : searchCPU ('C' :: 'P' :: 'U' :: ' ' :: '[' ::
        (renderCores cores ++ ']' :: post)) = some (renderCores cores) := by
      rw [searchCPU_cons, hm]
    have hp : pctEntries (renderCores cores) = cores.map digitsToNat :=
      pctEntries_render cores hne hall
    have hplen : cores.map digitsToNat ≠ [] := by
      simpa using hne
    simp only [parse_tegrastats, hs, hp]
    rw [if_neg hplen]
    simp
  · intro l h
    simp [parse_tegrastats, h]
  · intro l cap h1 h2
    simp [parse_tegrastats, h1, h2]
  · have hs : searchCPU (("RAM 1683/7762MB SWAP 0/3881MB CPU [11%@1113,8%@1113,9%@1113] EMC_FREQ 0% GR3D_FREQ 15%@114 SOC_TEMP 35.5C").toList)
        = some (("11%@1113,8%@1113,9%@1113").toList) := rfl
    have hp : pctEntries (("11%@1113,8%@1113,9%@1113").toList) = [11, 8, 9] := rfl
    have e : pyRound2 ((28 : ℚ) / 3) = ((933 : ℤ) : ℚ) / 100 :=
      pyRound2_eq_of_lt_half _ 933 (by norm_num) (by norm_num)
    simp only [parse_tegrastats, hs, hp]
    rw [if_neg (by decide)]
    rw [show (([11, 8, 9] : List ℕ).sum : ℚ) = (28 : ℚ) by norm_num]
    rw [show (([11, 8, 9] : List ℕ).length : ℚ) = (3 : ℚ) by norm_num]
    rw [e]
    norm_num

theorem cpu_parse_average_over_cores_witness :
    (parse_tegrastats (("CPU [9%@1113]").toList)).cpu_usage_percent
      = some ((900 : ℚ) / 100) := by
  have h := cpu_parse_average_over_cores.1 ([['9']]) ([]) (by decide) (by decide)
  have e : pyRound2 ((9 : ℚ) / 1) = ((900 : ℤ) : ℚ) / 100 :=
    pyRound2_eq_of_lt_half _ 900 (by norm_num) (by norm_num)
  refine h.trans ?_
  rw [show ([['9']].map digitsToNat).sum = 9 from rfl]
  rw [show ([['9']] : List (List Char)).length = 1 from rfl]
  push_cast
  rw [e]
  norm_num

/-- C2 amended: for streams of JSON-object lines, the chat handler silently
discards a malformed line between two valid lines and yields exactly the two
decoded records in order; the pull handler instead throws on the malformed
line, so its record stream ends after the first record and the pull
operation is aborted. -/
theorem malformed_line_chat_tolerant_pull_throws
    (l1 lb l2 : List Char) (j1 j2 : Json)
    (ht1 : jsTrim l1 = l1) (hh1 : l1.head? = some '\x7b') (hp1 : jsonParse l1 = some j1)
    (hn1 : '\n' ∉ l1)
    (ht2 : jsTrim l2 = l2) (hh2 : l2.head? = some '\x7b') (hp2 : jsonParse l2 = some j2)
    (hn2 : '\n' ∉ l2)
    (htb : jsTrim lb = lb) (hbne : lb ≠ []) (hpb : jsonParse lb = none) (hnb : '\n' ∉ lb) :
    chatRecords [l1 ++ '\n' :: (lb ++ '\n' :: (l2 ++ ['\n']))] = [j1, j2]
    ∧ pullRecords [l1 ++ '\n' :: (lb ++ '\n' :: (l2 ++ ['\n']))] = ([j1], true) := by
  have hsplit : splitNl (l1 ++ '\n' :: (lb ++ '\n' :: (l2 ++ ['\n'])))
      = [l1, lb, l2, []] := by
    rw [splitNl_append_nl _ _ hn1, splitNl_append_nl _ _ hnb,
      show (l2 ++ ['\n'] : List Char) = l2 ++ '\n' :: [] from rfl,
      splitNl_append_nl _ _ hn2]
    rfl
  have hne1 : l1 ≠ [] := by
    intro h; rw [h] at hh1; simp at hh1
  have hne2 : l2 ≠ [] := by
    intro h; rw [h] at hh2; simp at hh2
  have hcl1 : chatLineRecord l1 = some j1 := by
    unfold chatLineRecord
    rw [ht1]
    cases l1 with
    | nil => simp at hh1
    | cons c cs =>
      have hc : c = '\x7b' := by simpa using hh1
      simp [hc, ← hp1]
  have hcl2 : chatLineRecord l2 = some j2 := by
    unfold chatLineRecord
    rw [ht2]
    cases l2 with
    | nil => simp at hh2
    | cons c cs =>
      have hc : c = '\x7b' := by simpa using hh2
      simp [hc, ← hp2]
  have hclb : chatLineRecord lb = none := by
    unfold chatLineRecord
    rw [htb]
    cases lb with
    | nil => rfl
    | cons c cs =>
      by_cases hc : c = '\x7b'
      · simp only [hc, if_pos]
        rw [← hc, hpb]
      · simp [hc]
  have hcl0 : chatLineRecord [] = none := rfl
  have he1 : l1.isEmpty = false := by
    cases l1 with
    | nil => exact absurd rfl hne1
    | cons _ _ => rfl
  have he2 : l2.isEmpty = false := by
    cases l2 with
    | nil => exact absurd rfl hne2
    | cons _ _ => rfl
  have heb : lb.isEmpty = false := by
    cases lb with
    | nil => exact absurd rfl hbne
    | cons _ _ => rfl
  constructor
  · simp only [chatRecords, List.flatMap_cons, List.flatMap_nil, List.append_nil,
      hsplit, List.filterMap_cons, List.filterMap_nil, hcl1, hcl2, hclb, hcl0]
  · have hlines : pullChunkLines (l1 ++ '\n' :: (lb ++ '\n' :: (l2 ++ ['\n'])))
        = [l1, lb, l2] := by
      unfold pullChunkLines
      rw [hsplit]
      simp only [List.filter_cons, ht1, ht2, htb, he1, he2, heb]
      simp [jsTrim]
    simp [pullRecords, hlines, pullDecode, hp1, hpb]

theorem malformed_line_chat_tolerant_pull_throws_witness :
    chatRecords
        [(("\x7b\"status\":\"pulling manifest\"\x7d\nBAD LINE\n\x7b\"status\":\"success\"\x7d\n").toList)]
      = [Json.obj [(("status"), Json.str ("pulling manifest"))],
         Json.obj [(("status"), Json.str ("success"))]]
    ∧ pullRecords
        [(("\x7b\"status\":\"pulling manifest\"\x7d\nBAD LINE\n\x7b\"status\":\"success\"\x7d\n").toList)]
      = ([Json.obj [(("status"), Json.str ("pulling manifest"))]], true) := by
  have h := malformed_line_chat_tolerant_pull_throws
    (("\x7b\"status\":\"pulling manifest\"\x7d").toList)
    (("BAD LINE").toList)
    (("\x7b\"status\":\"success\"\x7d").toList)
    (Json.obj [(("status"), Json.str ("pulling manifest"))])
    (Json.obj [(("status"), Json.str ("success"))])
    rfl rfl rfl (by decide) rfl rfl rfl (by decide) rfl (by decide) rfl (by decide)
  exact h
